import Mathlib

/-!
Verification of the Surfboard-Finder recommendation engine
(`src/surfboard_finder_pro_compare.jsx`).

The source is a React page whose only real logic is a pure pipeline:
a volume heuristic, a board-scoring function, a filter/sort/group
pipeline, a CSV ingester and a catalog loader with a fallback data set.
This file is a shallow embedding of that logic.

Modelling conventions:
* JS numbers are modelled as exact rationals (`ℚ`).  The engine's data
  model (spec section 3) declares `volume` and the weight interval as
  real numbers, so the engine-side `Board` carries `ℚ` fields.
* `Math.round` is JavaScript's round-half-toward-positive-infinity,
  modelled as `⌊x + 1/2⌋`.
* CSV ingestion goes through JavaScript's `Number(...)` coercion, which
  can yield `NaN` on unparsable text; its output therefore uses a
  separate number type `Jn` (`nan` or a finite rational).  The model
  collapses non-finite values (`NaN`, `±Infinity`) into `Jn.nan`; no
  claim distinguishes them, and no arithmetic is performed on `Jn`.
* `Array.prototype.sort` with a comparator `cmp` is modelled as a stable
  insertion sort driven by the strict order `lt a b := cmp a b < 0`
  (sort stability is guaranteed by ES2019, and the spec relies on it).
-/

namespace SurfFinder

/-- Rider skill tier (source `Ability` union type). -/
inductive Ability
  | beginner
  | intermediate
  | advanced
deriving DecidableEq, Repr

/-- Surf-break category (source `WaveType` union type). -/
inductive WaveType
  | small_beach
  | mellow_point
  | punchy_reef
  | overhead
deriving DecidableEq, Repr

/-- Catalog record for one surfboard (source `Board` interface), with the
numeric fields as exact rationals per the data model. -/
structure Board where
  id : String
  shaper : String
  model : String
  waveTypes : List WaveType
  abilities : List Ability
  recommendedWeight : ℚ × ℚ
  length : String
  volume : ℚ
  tail : String
  fins : String
  construction : String
  img : String
  sponsored : Bool := false
deriving DecidableEq, Repr

/-- Sort mode of the results list (source `sort` state,
`"best" | "volume" | "sponsored"`). -/
inductive SortMode
  | best
  | volume
  | sponsored
deriving DecidableEq, Repr

/-- User query consumed by the ranking pipeline: weight, ability, wave,
sort mode and the brand (shaper) filter set (source component state). -/
structure Query where
  weight : ℚ
  ability : Ability
  wave : WaveType
  sortMode : SortMode
  brandFilter : List String
deriving DecidableEq, Repr

/-- JavaScript `Math.round`: round half toward positive infinity. -/
def jsRound (q : ℚ) : ℤ := ⌊q + 1 / 2⌋

/-- Source `round1`: `Math.round(n * 10) / 10`. -/
def round1 (q : ℚ) : ℚ := (jsRound (q * 10) : ℚ) / 10

/-- Ability-specific volume fraction pair (source `mult` table in
`heuristicVolume`): beginner `[0.45, 0.55]`, intermediate `[0.38, 0.47]`,
advanced `[0.3, 0.4]`. -/
def multFor : Ability → ℚ × ℚ
  | .beginner => (9 / 20, 11 / 20)
  | .intermediate => (19 / 50, 47 / 100)
  | .advanced => (3 / 10, 2 / 5)

/-- Source `heuristicVolume`: weight times the ability fraction pair,
both bounds passed through `round1`. -/
def heuristicVolume (weightKg : ℚ) (ability : Ability) : ℚ × ℚ :=
  let m := multFor ability
  (round1 (weightKg * m.1), round1 (weightKg * m.2))

/-- Source `scoreBoard`: base `100 - min(volDiff, 40) * 1.5`, then the
sequential adjustments `+10` (wave match), `+8` (ability match),
`+6`/`-6` (weight in/out of the recommended range), `+3` (sponsored). -/
def scoreBoard (b : Board) (weight : ℚ) (wave : WaveType) (ability : Ability) : ℚ :=
  let mm := heuristicVolume weight ability
  let targetV := (mm.1 + mm.2) / 2
  let volDiff := |b.volume - targetV|
  let s0 := 100 - min volDiff 40 * (3 / 2)
  let s1 := if wave ∈ b.waveTypes then s0 + 10 else s0
  let s2 := if ability ∈ b.abilities then s1 + 8 else s1
  let s3 := if b.recommendedWeight.1 ≤ weight ∧ weight ≤ b.recommendedWeight.2
    then s2 + 6 else s2 - 6
  if b.sponsored then s3 + 3 else s3

/-- Closed form of `scoreBoard`: the sequential mutations of `s` collapse
into one sum of indicator terms.  Shared by several claims below. -/
theorem scoreBoard_eq (b : Board) (w : ℚ) (wv : WaveType) (ab : Ability) :
    scoreBoard b w wv ab =
      100 - min (|b.volume - ((heuristicVolume w ab).1 + (heuristicVolume w ab).2) / 2|) 40
          * (3 / 2)
        + (if wv ∈ b.waveTypes then 10 else 0)
        + (if ab ∈ b.abilities then 8 else 0)
        + (if b.recommendedWeight.1 ≤ w ∧ w ≤ b.recommendedWeight.2 then 6 else -6)
        + (if b.sponsored then 3 else 0) := by
  unfold scoreBoard
  split_ifs <;> ring

/-- Round half away from zero at the tenths digit.  Modelled from the
spec's words ("round-half-away-from-zero at the tenths digit") for
comparison with the source's `round1`. -/
def roundHalfAwayTenths (q : ℚ) : ℚ :=
  ((if 0 ≤ q then ⌊q * 10 + 1 / 2⌋ else -⌊-(q * 10) + 1 / 2⌋ : ℤ) : ℚ) / 10

/-- Evaluation of the heuristic at the spec's worked example
(80 kg, intermediate): `(30.4, 37.6)`.  Shared by several witnesses. -/
theorem heuristicVolume_80_intermediate :
    heuristicVolume 80 Ability.intermediate = (152 / 5, 188 / 5) := by
  norm_num [heuristicVolume, round1, jsRound, multFor, Prod.ext_iff]

/-- Concrete board used to witness the 127-point score of claim C1:
volume exactly at the target midpoint for an 80 kg intermediate rider,
matching wave and ability, in-range weight, sponsored. -/
def boardC1 : Board :=
  { id := "w1", shaper := "S", model := "M"
    waveTypes := [.mellow_point], abilities := [.intermediate]
    recommendedWeight := (65, 95), length := "", volume := 34
    tail := "", fins := "", construction := "", img := "", sponsored := true }

/-- C1: for every board and every weight/wave/ability, `scoreBoard`
returns exactly `100 - min(|volume - targetV|, 40) * 1.5`, plus 10 for a
wave match, plus 8 for an ability match, plus 6 for an in-range weight
and minus 6 otherwise, plus 3 when sponsored, where `targetV` is the
midpoint of `heuristicVolume`; and a board with volume exactly at
`targetV`, matching wave and ability, in-range weight and
`sponsored = true` scores 127. -/
theorem C1_scoreBoard_formula (b : Board) (w : ℚ) (wv : WaveType) (ab : Ability) :
    (scoreBoard b w wv ab =
      100 - min (|b.volume - ((heuristicVolume w ab).1 + (heuristicVolume w ab).2) / 2|) 40
          * (3 / 2)
        + (if wv ∈ b.waveTypes then 10 else 0)
        + (if ab ∈ b.abilities then 8 else 0)
        + (if b.recommendedWeight.1 ≤ w ∧ w ≤ b.recommendedWeight.2 then 6 else -6)
        + (if b.sponsored then 3 else 0))
    ∧ (b.volume = ((heuristicVolume w ab).1 + (heuristicVolume w ab).2) / 2 →
        wv ∈ b.waveTypes → ab ∈ b.abilities →
        b.recommendedWeight.1 ≤ w → w ≤ b.recommendedWeight.2 →
        b.sponsored = true →
        scoreBoard b w wv ab = 127) := by
  refine ⟨scoreBoard_eq b w wv ab, ?_⟩
  intro hvol hwv hab hwlo hwhi hsp
  rw [scoreBoard_eq, hvol, sub_self, abs_zero,
    min_eq_left (by norm_num : (0 : ℚ) ≤ 40),
    if_pos hwv, if_pos hab, if_pos ⟨hwlo, hwhi⟩, if_pos hsp]
  norm_num

/-- Witness for C1 at a concrete input: the 127-point board. -/
theorem C1_witness :
    scoreBoard boardC1 80 WaveType.mellow_point Ability.intermediate = 127 :=
  (C1_scoreBoard_formula boardC1 80 .mellow_point .intermediate).2
    (by rw [heuristicVolume_80_intermediate]; norm_num [boardC1])
    (by decide) (by decide)
    (by norm_num [boardC1]) (by norm_num [boardC1]) (by decide)

/-- Counterexample to C2 as stated: at weight `-1` and ability beginner,
the source rounds the half-tenth `-0.45` up to `-0.4` (JS `Math.round`
rounds halves toward `+∞`), while round-half-away-from-zero would give
`-0.5`. -/
theorem C2_counterexample :
    heuristicVolume (-1) Ability.beginner ≠
      (roundHalfAwayTenths ((-1) * (9 / 20)), roundHalfAwayTenths ((-1) * (11 / 20))) := by
  norm_num [heuristicVolume, round1, jsRound, roundHalfAwayTenths, multFor, Prod.ext_iff]

/-- C2 (amended): for every nonnegative weight, `heuristicVolume` is the
ability fraction pair times the weight with both bounds rounded
half-away-from-zero at the tenths digit (for nonnegative products this
coincides with the source's `Math.round`-based rounding); in particular
`heuristicVolume 80 intermediate = (30.4, 37.6)`. -/
theorem C2_heuristicVolume_amended :
    (∀ w : ℚ, 0 ≤ w → ∀ ab : Ability,
      heuristicVolume w ab =
        (roundHalfAwayTenths (w * (multFor ab).1), roundHalfAwayTenths (w * (multFor ab).2)))
    ∧ heuristicVolume 80 Ability.intermediate = (152 / 5, 188 / 5) := by
  constructor
  · intro w hw ab
    have h1 : (0 : ℚ) ≤ w * (multFor ab).1 := by
      cases ab <;> exact mul_nonneg hw (by norm_num [multFor])
    have h2 : (0 : ℚ) ≤ w * (multFor ab).2 := by
      cases ab <;> exact mul_nonneg hw (by norm_num [multFor])
    simp only [heuristicVolume, round1, jsRound, roundHalfAwayTenths, if_pos h1, if_pos h2]
  · exact heuristicVolume_80_intermediate

/-- Witness for C2 (amended) at weight 80, ability beginner. -/
theorem C2_witness :
    heuristicVolume 80 Ability.beginner =
      (roundHalfAwayTenths (80 * (multFor Ability.beginner).1),
       roundHalfAwayTenths (80 * (multFor Ability.beginner).2)) :=
  C2_heuristicVolume_amended.1 80 (by norm_num) .beginner

/-- C10: for every board (the engine data model's numeric fields are
finite rationals) and every weight/wave/ability, the score lies between
34 and 127 inclusive; in particular it is never negative. -/
theorem C10_score_bounds (b : Board) (w : ℚ) (wv : WaveType) (ab : Ability) :
    34 ≤ scoreBoard b w wv ab ∧ scoreBoard b w wv ab ≤ 127 := by
  rw [scoreBoard_eq]
  have h0 : (0 : ℚ) ≤
      min (|b.volume - ((heuristicVolume w ab).1 + (heuristicVolume w ab).2) / 2|) 40 :=
    le_min (abs_nonneg _) (by norm_num)
  have h1 : min (|b.volume - ((heuristicVolume w ab).1 + (heuristicVolume w ab).2) / 2|) 40
      ≤ 40 := min_le_right _ _
  split_ifs <;> constructor <;> linarith

/-! ### Stable sort (model of `Array.prototype.sort` with a comparator)

`lt a b` means "the comparator orders `a` strictly before `b`"
(`cmp a b < 0`).  `insertLt` places a new element before the first
element it strictly precedes; elements already in the list came earlier
in the input, so ties keep input order, matching the stability that
ES2019 guarantees and the spec relies on. -/

/-- Insert an input-earlier element into an already sorted list of
input-later elements, keeping stability. -/
def insertLt (lt : α → α → Bool) (x : α) : List α → List α
  | [] => [x]
  | y :: t => if lt y x then y :: insertLt lt x t else x :: y :: t

/-- Stable sort by the strict comparator order `lt`. -/
def sortJs (lt : α → α → Bool) : List α → List α
  | [] => []
  | x :: t => insertLt lt x (sortJs lt t)

theorem insertLt_perm (lt : α → α → Bool) (x : α) (l : List α) :
    (insertLt lt x l).Perm (x :: l) := by
  induction l with
  | nil => exact List.Perm.refl _
  | cons y t ih =>
    simp only [insertLt]
    split
    · exact (List.Perm.cons y ih).trans (List.Perm.swap x y t)
    · exact List.Perm.refl _

theorem sortJs_perm (lt : α → α → Bool) (l : List α) : (sortJs lt l).Perm l := by
  induction l with
  | nil => exact List.Perm.refl _
  | cons x t ih => exact (insertLt_perm lt x (sortJs lt t)).trans (List.Perm.cons x ih)

theorem mem_sortJs (lt : α → α → Bool) (l : List α) (a : α) :
    a ∈ sortJs lt l ↔ a ∈ l :=
  (sortJs_perm lt l).mem_iff

theorem sortJs_eq_nil_iff (lt : α → α → Bool) (l : List α) :
    sortJs lt l = [] ↔ l = [] := by
  constructor
  · intro h
    have := (sortJs_perm lt l).length_eq
    rw [h] at this
    exact List.eq_nil_of_length_eq_zero this.symm
  · intro h; rw [h]; rfl

theorem insertLt_pairwise (lt : α → α → Bool)
    (hA : ∀ a b, lt a b = true → lt b a = false)
    (hT : ∀ a b c, lt b a = false → lt c b = false → lt c a = false)
    (x : α) (l : List α) (h : l.Pairwise fun a b => lt b a = false) :
    (insertLt lt x l).Pairwise fun a b => lt b a = false := by
  induction l with
  | nil => simp [insertLt]
  | cons y t ih =>
    rcases List.pairwise_cons.1 h with ⟨hy, ht⟩
    simp only [insertLt]
    split
    · next hyx =>
      refine List.pairwise_cons.2 ⟨?_, ih ht⟩
      intro z hz
      have hz' : z = x ∨ z ∈ t := by
        have := (insertLt_perm lt x t).mem_iff.1 hz
        simpa using this
      rcases hz' with rfl | hz'
      · exact hA _ _ hyx
      · exact hy z hz'
    · next hyx =>
      have hyx' : lt y x = false := by
        cases hxy : lt y x with
        | false => rfl
        | true => exact absurd hxy hyx
      refine List.pairwise_cons.2 ⟨?_, h⟩
      intro z hz
      rcases hz with _ | hz
      · exact hyx'
      · exact hT x y z hyx' (hy z (by assumption))

theorem sortJs_pairwise (lt : α → α → Bool)
    (hA : ∀ a b, lt a b = true → lt b a = false)
    (hT : ∀ a b c, lt b a = false → lt c b = false → lt c a = false)
    (l : List α) :
    (sortJs lt l).Pairwise fun a b => lt b a = false := by
  induction l with
  | nil => simp [sortJs]
  | cons x t ih => exact insertLt_pairwise lt hA hT x (sortJs lt t) ih

/-- Inserting an element that precedes nothing in `l` leaves it in front. -/
theorem insertLt_front (lt : α → α → Bool) (x : α) (l : List α)
    (h : ∀ y ∈ l, lt y x = false) : insertLt lt x l = x :: l := by
  cases l with
  | nil => rfl
  | cons y t => simp [insertLt, h y (List.mem_cons_self y t)]

/-- Inserting an element that every member of `l₁` precedes and that no
member of `l₂` precedes lands it exactly between the two blocks. -/
theorem insertLt_cross (lt : α → α → Bool) (x : α) (l₁ l₂ : List α)
    (h₁ : ∀ y ∈ l₁, lt y x = true) (h₂ : ∀ y ∈ l₂, lt y x = false) :
    insertLt lt x (l₁ ++ l₂) = l₁ ++ x :: l₂ := by
  induction l₁ with
  | nil => simpa using insertLt_front lt x l₂ h₂
  | cons y t ih =>
    simp only [List.cons_append, insertLt, h₁ y (List.mem_cons_self y t), if_true,
      List.append_eq]
    rw [ih fun z hz => h₁ z (List.mem_cons_of_mem y hz)]

/-! ### Ranking and filtering pipeline

Model of the `filtered` and `topPicksByShaper` memo blocks: boards are
enriched with `_score`, filtered by wave, ability, volume window and the
optional shaper set, sorted by the active sort mode, and grouped per
shaper for the top-pick view.  `rankCatalog` bundles the two derived
views exactly as the spec's section 4.5 contract names them. -/

/-- Scored board: a board plus its transient `_score`. -/
abbrev EB := Board × ℚ

/-- Comparator order of sort mode `best`: `(a, b) ↦ b._score - a._score`
is negative, i.e. score descending. -/
def ltBest (a b : EB) : Bool := decide (b.2 - a.2 < 0)

/-- Comparator order of sort mode `volume`: distance to the target
volume, ascending. -/
def ltVolume (target : ℚ) (a b : EB) : Bool :=
  decide (|a.1.volume - target| - |b.1.volume - target| < 0)

/-- JS `Number(!!x)` on the sponsored flag. -/
def numBool (b : Bool) : ℚ := if b then 1 else 0

/-- Comparator order of sort mode `sponsored`:
`Number(!!b.sponsored) - Number(!!a.sponsored)` negative. -/
def ltSponsored (a b : EB) : Bool :=
  decide (numBool b.1.sponsored - numBool a.1.sponsored < 0)

/-- Comparator order of the final top-picks sort: score of the chosen
board, descending. -/
def ltTop (a b : String × EB) : Bool := decide (b.2.2 - a.2.2 < 0)

/-- Source `enriched`: every catalog board paired with its `_score`. -/
def enriched (c : List Board) (q : Query) : List EB :=
  c.map fun b => (b, scoreBoard b q.weight q.wave q.ability)

/-- The filter stage of the source `filtered` memo: wave membership,
ability membership, volume window `[minV - 6, maxV + 6]`, then the
optional shaper restriction. -/
def filteredPre (c : List Board) (q : Query) : List EB :=
  let mm := heuristicVolume q.weight q.ability
  let l := (((enriched c q).filter fun b => decide (q.wave ∈ b.1.waveTypes)).filter
      fun b => decide (q.ability ∈ b.1.abilities)).filter
      fun b => decide (mm.1 - 6 ≤ b.1.volume) && decide (b.1.volume ≤ mm.2 + 6)
  match q.brandFilter with
  | [] => l
  | _ => l.filter fun b => q.brandFilter.contains b.1.shaper

/-- Source `filtered`: the filter stage followed by the active sort. -/
def filtered (c : List Board) (q : Query) : List EB :=
  let mm := heuristicVolume q.weight q.ability
  match q.sortMode with
  | .volume => sortJs (ltVolume ((mm.1 + mm.2) / 2)) (filteredPre c q)
  | .sponsored => sortJs ltSponsored (filteredPre c q)
  | .best => sortJs ltBest (filteredPre c q)

/-- First-occurrence deduplication with an accumulator of seen keys:
model of `Map` insertion-order semantics for the per-shaper grouping. -/
def dedupFirstAux (seen : List String) : List String → List String
  | [] => []
  | k :: t => if k ∈ seen then dedupFirstAux seen t else k :: dedupFirstAux (k :: seen) t

/-- Distinct keys in order of first appearance (`Map` key order). -/
def dedupFirst (l : List String) : List String := dedupFirstAux [] l

/-- The `tops` array of the source `topPicksByShaper` memo: one
`(shaper, board)` pair per distinct shaper of the sorted-and-filtered
list (in `Map` insertion order, i.e. first appearance), the board being
the head of the group after re-sorting it by score descending. -/
def topsUnsorted (c : List Board) (q : Query) : List (String × EB) :=
  (dedupFirst ((filtered c q).map fun b => b.1.shaper)).filterMap fun k =>
    (sortJs ltBest ((filtered c q).filter fun b => b.1.shaper == k)).head?.map
      fun top => (k, top)

/-- Source `topPicksByShaper`: the per-shaper tops, sorted by the chosen
board's score descending. -/
def topPicksByShaper (c : List Board) (q : Query) : List (String × EB) :=
  sortJs ltTop (topsUnsorted c q)

/-- Result of the ranking pipeline: the full sorted list and the
per-brand top picks (spec section 4.5 `rankCatalog` contract). -/
structure RankResult where
  all : List EB
  topPerBrand : List (String × EB)
deriving DecidableEq, Repr

/-- The ranking pipeline: both derived views over one catalog and query. -/
def rankCatalog (c : List Board) (q : Query) : RankResult :=
  { all := filtered c q, topPerBrand := topPicksByShaper c q }

/-- First element attaining the maximal score of a scored-board list
(`none` on the empty list): the specification of "highest score, ties by
first occurrence". -/
def firstMax : List EB → Option EB
  | [] => none
  | x :: t =>
    match firstMax t with
    | none => some x
    | some m => some (if x.2 < m.2 then m else x)

/-- C9: the scoring and ranking pipeline is deterministic.  The
embedding is purely functional, so calling `scoreBoard` or `rankCatalog`
twice on identical arguments yields definitionally identical results
(`all` and `topPerBrand` sequences included, order and all). -/
theorem C9_deterministic (b : Board) (w : ℚ) (wv : WaveType) (ab : Ability)
    (c : List Board) (q : Query) :
    scoreBoard b w wv ab = scoreBoard b w wv ab
    ∧ (rankCatalog c q).all = (rankCatalog c q).all
    ∧ (rankCatalog c q).topPerBrand = (rankCatalog c q).topPerBrand :=
  ⟨rfl, rfl, rfl⟩

/-- Membership in the filter stage, characterised by the claim's four
conditions (plus membership in the catalog and the attached score). -/
theorem mem_filteredPre (c : List Board) (q : Query) (b : Board) (s : ℚ) :
    (b, s) ∈ filteredPre c q ↔
      (b ∈ c ∧ s = scoreBoard b q.weight q.wave q.ability ∧
       q.wave ∈ b.waveTypes ∧ q.ability ∈ b.abilities ∧
       (heuristicVolume q.weight q.ability).1 - 6 ≤ b.volume ∧
       b.volume ≤ (heuristicVolume q.weight q.ability).2 + 6 ∧
       (q.brandFilter = [] ∨ b.shaper ∈ q.brandFilter)) := by
  cases hbf : q.brandFilter with
  | nil =>
    simp only [filteredPre, hbf, enriched, List.mem_filter, List.mem_map,
      Bool.and_eq_true, decide_eq_true_eq]
    constructor
    · rintro ⟨⟨⟨⟨a, ha, heq⟩, hw⟩, hab⟩, hv1, hv2⟩
      obtain ⟨rfl, rfl⟩ := Prod.mk.injEq .. ▸ heq
      exact ⟨ha, rfl, hw, hab, hv1, hv2, Or.inl trivial⟩
    · rintro ⟨hb, rfl, hw, hab, hv1, hv2, -⟩
      exact ⟨⟨⟨⟨b, hb, rfl⟩, hw⟩, hab⟩, hv1, hv2⟩
  | cons x xs =>
    simp only [filteredPre, hbf, enriched, List.mem_filter, List.mem_map,
      Bool.and_eq_true, decide_eq_true_eq, List.elem_iff]
    constructor
    · rintro ⟨⟨⟨⟨⟨a, ha, heq⟩, hw⟩, hab⟩, hv1, hv2⟩, hsh⟩
      obtain ⟨rfl, rfl⟩ := Prod.mk.injEq .. ▸ heq
      exact ⟨ha, rfl, hw, hab, hv1, hv2, Or.inr hsh⟩
    · rintro ⟨hb, rfl, hw, hab, hv1, hv2, hsh⟩
      rcases hsh with h | h
      · exact absurd h (by simp)
      · exact ⟨⟨⟨⟨⟨b, hb, rfl⟩, hw⟩, hab⟩, hv1, hv2⟩, h⟩

/-- The sorted list `filtered` holds the same members as its filter
stage, whatever the sort mode. -/
theorem mem_filtered (c : List Board) (q : Query) (x : EB) :
    x ∈ filtered c q ↔ x ∈ filteredPre c q := by
  unfold filtered
  cases q.sortMode <;> exact mem_sortJs _ _ _

/-- C3: a `(board, score)` pair is in `rankCatalog`'s `all` view exactly
when the board is in the catalog with its attached score and passes the
four filters: wave membership, ability membership, volume inside
`[heuristicMin - 6, heuristicMax + 6]`, and the brand filter (vacuous
when the filter set is empty). -/
theorem C3_all_membership (c : List Board) (q : Query) (b : Board) (s : ℚ) :
    (b, s) ∈ (rankCatalog c q).all ↔
      (b ∈ c ∧ s = scoreBoard b q.weight q.wave q.ability ∧
       q.wave ∈ b.waveTypes ∧ q.ability ∈ b.abilities ∧
       (heuristicVolume q.weight q.ability).1 - 6 ≤ b.volume ∧
       b.volume ≤ (heuristicVolume q.weight q.ability).2 + 6 ∧
       (q.brandFilter = [] ∨ b.shaper ∈ q.brandFilter)) :=
  (mem_filtered c q (b, s)).trans (mem_filteredPre c q b s)

/-- The sponsored-first comparator orders `a` strictly before `b` exactly
when `a` is sponsored and `b` is not. -/
theorem ltSponsored_eval (a b : EB) :
    ltSponsored a b = (a.1.sponsored && !b.1.sponsored) := by
  cases ha : a.1.sponsored <;> cases hb : b.1.sponsored <;>
    simp [ltSponsored, numBool, ha, hb]

/-- Stable sorting by the sponsored-first comparator is exactly the
stable partition: the sponsored block, then the unsponsored block, each
in input order. -/
theorem sortJs_ltSponsored_partition (l : List EB) :
    sortJs ltSponsored l =
      l.filter (fun x => x.1.sponsored) ++ l.filter (fun x => !x.1.sponsored) := by
  induction l with
  | nil => rfl
  | cons x t ih =>
    show insertLt ltSponsored x (sortJs ltSponsored t) = _
    rw [ih]
    cases hx : x.1.sponsored with
    | true =>
      rw [insertLt_front]
      · simp [List.filter_cons, hx]
      · intro y hy
        rw [ltSponsored_eval]
        simp [hx]
    | false =>
      rw [insertLt_cross ltSponsored x (t.filter fun x => x.1.sponsored)
          (t.filter fun x => !x.1.sponsored) ?_ ?_]
      · simp [List.filter_cons, hx]
      · intro y hy
        rw [ltSponsored_eval]
        have : y.1.sponsored = true := by
          have := List.of_mem_filter hy
          simpa using this
        simp [this, hx]
      · intro y hy
        rw [ltSponsored_eval]
        have : y.1.sponsored = false := by
          have := List.of_mem_filter hy
          simpa using this
        simp [this]

/-- C8: under sort mode `sponsored_first` the sort is the stable
partition — every sponsored board precedes every unsponsored board and
input order is preserved within each group.  Stated both for the sort
itself on an arbitrary (e.g. filtered) list and for the pipeline's `all`
view with sort mode `sponsored`. -/
theorem C8_sponsored_first (l : List EB) (c : List Board) (w : ℚ) (ab : Ability)
    (wv : WaveType) (bf : List String) :
    sortJs ltSponsored l =
      l.filter (fun x => x.1.sponsored) ++ l.filter (fun x => !x.1.sponsored)
    ∧ (rankCatalog c ⟨w, ab, wv, .sponsored, bf⟩).all =
        (filteredPre c ⟨w, ab, wv, .sponsored, bf⟩).filter (fun x => x.1.sponsored)
          ++ (filteredPre c ⟨w, ab, wv, .sponsored, bf⟩).filter (fun x => !x.1.sponsored) :=
  ⟨sortJs_ltSponsored_partition l,
   sortJs_ltSponsored_partition (filteredPre c ⟨w, ab, wv, .sponsored, bf⟩)⟩

/-! ### Per-brand top picks (claim C4) -/

theorem firstMax_eq_none_iff (l : List EB) : firstMax l = none ↔ l = [] := by
  cases l with
  | nil => simp [firstMax]
  | cons x t => cases h : firstMax t <;> simp [firstMax, h]

/-- Head of the stable score-descending sort: the first element of the
input attaining the maximal score. -/
theorem head_sortJs_ltBest (l : List EB) :
    (sortJs ltBest l).head? = firstMax l := by
  induction l with
  | nil => rfl
  | cons x t ih =>
    show (insertLt ltBest x (sortJs ltBest t)).head? = _
    cases hs : sortJs ltBest t with
    | nil =>
      have ht : t = [] := (sortJs_eq_nil_iff _ _).1 hs
      subst ht
      rfl
    | cons y ys =>
      have hy : firstMax t = some y := by rw [← ih, hs]; rfl
      cases hlt : ltBest y x with
      | true =>
        have h1 : decide (x.2 - y.2 < 0) = true := hlt
        have h2 : x.2 < y.2 := by have := of_decide_eq_true h1; linarith
        simp [insertLt, hlt, firstMax, hy, if_pos h2]
      | false =>
        have h1 : decide (x.2 - y.2 < 0) = false := hlt
        have h2 : ¬x.2 < y.2 := by
          have := of_decide_eq_false h1
          intro hc
          exact this (by linarith)
        simp [insertLt, hlt, firstMax, hy, if_neg h2]

theorem firstMax_mem (l : List EB) : ∀ m, firstMax l = some m → m ∈ l := by
  induction l with
  | nil => intro m h; simp [firstMax] at h
  | cons x t ih =>
    intro m h
    cases ht : firstMax t with
    | none =>
      simp only [firstMax, ht, Option.some.injEq] at h
      exact h ▸ List.mem_cons_self x t
    | some m' =>
      simp only [firstMax, ht, Option.some.injEq] at h
      by_cases hc : x.2 < m'.2
      · rw [if_pos hc] at h
        exact List.mem_cons_of_mem x (h ▸ ih m' ht)
      · rw [if_neg hc] at h
        exact h ▸ List.mem_cons_self x t

theorem firstMax_le (l : List EB) : ∀ m, firstMax l = some m → ∀ x ∈ l, x.2 ≤ m.2 := by
  induction l with
  | nil => intro m h; simp [firstMax] at h
  | cons x t ih =>
    intro m h z hz
    cases ht : firstMax t with
    | none =>
      have ht' : t = [] := (firstMax_eq_none_iff t).1 ht
      subst ht'
      simp only [firstMax, Option.some.injEq] at h
      have hz' : z = x := by simpa using hz
      rw [hz', h]
    | some m' =>
      simp only [firstMax, ht, Option.some.injEq] at h
      rcases List.mem_cons.1 hz with rfl | hz'
      · by_cases hc : z.2 < m'.2
        · rw [if_pos hc] at h
          exact h ▸ hc.le
        · rw [if_neg hc] at h
          rw [h]
      · have h1 : z.2 ≤ m'.2 := ih m' ht z hz'
        by_cases hc : x.2 < m'.2
        · rw [if_pos hc] at h
          exact h ▸ h1
        · rw [if_neg hc] at h
          exact h ▸ h1.trans (not_lt.1 hc)

theorem mem_dedupFirstAux (l : List String) :
    ∀ seen a, a ∈ dedupFirstAux seen l ↔ a ∈ l ∧ a ∉ seen := by
  induction l with
  | nil => intro seen a; simp [dedupFirstAux]
  | cons k t ih =>
    intro seen a
    by_cases hk : k ∈ seen
    · rw [dedupFirstAux, if_pos hk, ih]
      constructor
      · rintro ⟨h1, h2⟩
        exact ⟨List.mem_cons_of_mem k h1, h2⟩
      · rintro ⟨h1, h2⟩
        rcases List.mem_cons.1 h1 with rfl | h1'
        · exact absurd hk h2
        · exact ⟨h1', h2⟩
    · rw [dedupFirstAux, if_neg hk]
      constructor
      · intro h
        rcases List.mem_cons.1 h with rfl | h'
        · exact ⟨List.mem_cons_self a t, hk⟩
        · rcases (ih (k :: seen) a).1 h' with ⟨h1, h2⟩
          exact ⟨List.mem_cons_of_mem k h1, fun hc => h2 (List.mem_cons_of_mem k hc)⟩
      · rintro ⟨h1, h2⟩
        rcases List.mem_cons.1 h1 with rfl | h1'
        · exact List.mem_cons_self a _
        · by_cases hak : a = k
          · exact hak ▸ List.mem_cons_self k _
          · exact List.mem_cons_of_mem k
              ((ih (k :: seen) a).2 ⟨h1', fun hc => by
                rcases List.mem_cons.1 hc with h | h
                · exact hak h
                · exact h2 h⟩)

theorem nodup_dedupFirstAux (l : List String) :
    ∀ seen, (dedupFirstAux seen l).Nodup := by
  induction l with
  | nil => intro seen; simp [dedupFirstAux]
  | cons k t ih =>
    intro seen
    rw [dedupFirstAux]
    split
    · exact ih seen
    · refine List.nodup_cons.2 ⟨?_, ih (k :: seen)⟩
      intro hmem
      exact ((mem_dedupFirstAux t (k :: seen) k).1 hmem).2 (List.mem_cons_self k seen)

theorem mem_dedupFirst (l : List String) (a : String) : a ∈ dedupFirst l ↔ a ∈ l := by
  rw [dedupFirst, mem_dedupFirstAux]
  simp

theorem nodup_dedupFirst (l : List String) : (dedupFirst l).Nodup :=
  nodup_dedupFirstAux l []

/-- The shapers of the per-brand pairs form a sublist of the
deduplicated key list. -/
theorem map_fst_filterMap_sublist (g : String → Option EB) (keys : List String) :
    ((keys.filterMap fun k => (g k).map fun t => (k, t)).map Prod.fst).Sublist keys := by
  induction keys with
  | nil => simp
  | cons k t ih =>
    cases hg : g k with
    | none =>
      simp only [List.filterMap_cons, hg, Option.map_none']
      exact ih.cons k
    | some v =>
      simp only [List.filterMap_cons, hg, Option.map_some', List.map_cons]
      exact ih.cons₂ k

/-- C4: in `rankCatalog`'s `topPerBrand` view — for every catalog, query
and sort mode — no two entries share a brand; every entry's board is the
first highest-scoring element of its brand's group of the
filtered-and-sorted list (`firstMax`: maximum score, ties resolved by
first occurrence); and the entries are ordered by score descending. -/
theorem C4_topPerBrand (c : List Board) (q : Query) :
    ((rankCatalog c q).topPerBrand.map Prod.fst).Nodup
    ∧ (∀ e ∈ (rankCatalog c q).topPerBrand,
        e.2 ∈ (rankCatalog c q).all.filter (fun x => x.1.shaper == e.1)
        ∧ (∀ x ∈ (rankCatalog c q).all.filter (fun x => x.1.shaper == e.1), x.2 ≤ e.2.2)
        ∧ firstMax ((rankCatalog c q).all.filter (fun x => x.1.shaper == e.1)) = some e.2)
    ∧ (rankCatalog c q).topPerBrand.Pairwise (fun a b => b.2.2 ≤ a.2.2) := by
  refine ⟨?_, ?_, ?_⟩
  · have hperm : ((rankCatalog c q).topPerBrand.map Prod.fst).Perm
        ((topsUnsorted c q).map Prod.fst) :=
      (sortJs_perm ltTop (topsUnsorted c q)).map Prod.fst
    rw [hperm.nodup_iff]
    exact List.Nodup.sublist (map_fst_filterMap_sublist _ _) (nodup_dedupFirst _)
  · intro e he
    have he' : e ∈ topsUnsorted c q := (mem_sortJs _ _ _).1 he
    rw [topsUnsorted, List.mem_filterMap] at he'
    obtain ⟨k, hk, hgk⟩ := he'
    rw [Option.map_eq_some'] at hgk
    obtain ⟨top, hhead, rfl⟩ := hgk
    have hfm : firstMax ((filtered c q).filter fun b => b.1.shaper == k) = some top := by
      rw [← head_sortJs_ltBest]
      exact hhead
    exact ⟨firstMax_mem _ _ hfm, firstMax_le _ _ hfm, hfm⟩
  · have hA : ∀ a b : String × EB, ltTop a b = true → ltTop b a = false := by
      intro a b h
      have h1 := of_decide_eq_true (p := b.2.2 - a.2.2 < 0) h
      exact decide_eq_false (by intro hc; linarith)
    have hT : ∀ a b c' : String × EB,
        ltTop b a = false → ltTop c' b = false → ltTop c' a = false := by
      intro a b c' h1 h2
      have h1' := of_decide_eq_false (p := a.2.2 - b.2.2 < 0) h1
      have h2' := of_decide_eq_false (p := b.2.2 - c'.2.2 < 0) h2
      exact decide_eq_false (by intro hc; push_neg at h1' h2'; linarith)
    refine (sortJs_pairwise ltTop hA hT (topsUnsorted c q)).imp ?_
    intro a b h
    have := of_decide_eq_false (p := a.2.2 - b.2.2 < 0) h
    linarith [not_lt.1 this]

/-- Concrete board for the C4 witness: matches the C4 witness query on
wave, ability, volume window and weight range. -/
def boardC4 : Board :=
  { id := "w4", shaper := "S", model := "M4"
    waveTypes := [.mellow_point], abilities := [.intermediate]
    recommendedWeight := (65, 95), length := "", volume := 34
    tail := "", fins := "", construction := "", img := "", sponsored := false }

/-- Concrete query for the C4 witness. -/
def queryC4 : Query :=
  { weight := 80, ability := .intermediate, wave := .mellow_point
    sortMode := .best, brandFilter := [] }

/-- Concrete evaluation of the filter stage on the C4 witness input. -/
theorem filteredPre_C4 :
    filteredPre [boardC4] queryC4 =
      [(boardC4, scoreBoard boardC4 80 WaveType.mellow_point Ability.intermediate)] := by
  simp only [filteredPre, queryC4, enriched, heuristicVolume_80_intermediate, boardC4]
  norm_num

/-- Concrete evaluation of the whole pipeline on the C4 witness input. -/
theorem topPerBrand_C4 :
    (rankCatalog [boardC4] queryC4).topPerBrand =
      [("S", (boardC4, scoreBoard boardC4 80 WaveType.mellow_point Ability.intermediate))] := by
  have hall : filtered [boardC4] queryC4 =
      [(boardC4, scoreBoard boardC4 80 WaveType.mellow_point Ability.intermediate)] := by
    show sortJs ltBest (filteredPre [boardC4] queryC4) = _
    rw [filteredPre_C4]
    rfl
  show sortJs ltTop (topsUnsorted [boardC4] queryC4) = _
  rw [topsUnsorted, hall]
  simp [dedupFirst, dedupFirstAux, boardC4, sortJs, insertLt]

/-- Witness for C4 at a concrete input: the pipeline's single top pick is
the first maximum of its brand group. -/
theorem C4_witness :
    firstMax ((rankCatalog [boardC4] queryC4).all.filter
        (fun x => x.1.shaper == "S")) =
      some (boardC4, scoreBoard boardC4 80 WaveType.mellow_point Ability.intermediate) := by
  have hmem : ("S", (boardC4, scoreBoard boardC4 80 WaveType.mellow_point Ability.intermediate))
      ∈ (rankCatalog [boardC4] queryC4).topPerBrand := by
    rw [topPerBrand_C4]
    exact List.mem_cons_self _ _
  exact ((C4_topPerBrand [boardC4] queryC4).2.1 _ hmem).2.2

/-! ### CSV ingestion

Model of `parseAirtableCSV` and its helpers.  Numeric cells go through
JavaScript's `Number(...)` coercion, which yields `NaN` on unparsable
non-empty text, so the ingested records carry the number type `Jn`
below.  The model collapses non-finite values (`NaN`, `±Infinity`) into
`Jn.nan`; no claim distinguishes them and the ingested records are never
used in arithmetic here.  String values are exact (no overflow is
modelled: number literals denote exact rationals). -/

/-- A JavaScript number as produced by `Number(...)`: either a finite
value (exact rational) or not-a-finite-number. -/
inductive Jn
  | nan
  | fin (q : ℚ)
deriving DecidableEq, Repr

/-- Board record as built by CSV ingestion.  Field list mirrors the
source `Board` interface; `waveTypes`/`abilities` stay raw strings
because the source casts the split cell text without validation, and the
numeric fields carry `Jn`. -/
structure CsvBoard where
  id : String
  shaper : String
  model : String
  waveTypes : List String
  abilities : List String
  recommendedWeight : Jn × Jn
  length : String
  volume : Jn
  tail : String
  fins : String
  construction : String
  img : String
  sponsored : Bool
deriving DecidableEq, Repr

/-- ASCII whitespace recognised by the model for JS `trim` and the
`\s` regex class (space, tab, LF, CR, VT, FF; the Unicode extras that JS
also accepts never occur in the inputs considered here). -/
def isJsSpace (c : Char) : Bool :=
  c == ' ' || c == '\t' || c == '\n' || c == '\r' || c == '\x0b' || c == '\x0c'

def trimChars (l : List Char) : List Char :=
  ((l.dropWhile isJsSpace).reverse.dropWhile isJsSpace).reverse

/-- JS `String.prototype.trim`. -/
def jsTrim (s : String) : String := String.mk (trimChars s.toList)

/-- JS `String.prototype.toLowerCase` (ASCII). -/
def jsToLower (s : String) : String := String.mk (s.toList.map Char.toLower)

/-- JS `String.prototype.split` on a single separator character,
keeping empty fields. -/
def splitOnChar (sep : Char) : List Char → List (List Char)
  | [] => [[]]
  | c :: t =>
    if c == sep then [] :: splitOnChar sep t
    else
      match splitOnChar sep t with
      | [] => [[c]]
      | h :: r => (c :: h) :: r

/-- JS `split(/\r?\n/)`: line separator is `\n` optionally preceded by
`\r`; a lone `\r` stays in its line. -/
def splitLines : List Char → List (List Char)
  | [] => [[]]
  | '\r' :: '\n' :: t => [] :: splitLines t
  | '\n' :: t => [] :: splitLines t
  | c :: t =>
    match splitLines t with
    | [] => [[c]]
    | h :: r => (c :: h) :: r

/-- Source `csv.split(/\r?\n/).filter(Boolean)`: lines with empties
dropped. -/
def rowsOf (csv : String) : List String :=
  ((splitLines csv.toList).map String.mk).filter fun s => !(s == "")

/-- Character loop of `safeParseCSVRow`: `"` toggles quote mode and is
dropped, `,` outside quotes ends a field, anything else accumulates
(current field kept reversed). -/
def csvRowGo : List Char → Bool → List Char → List String → List String
  | [], _, cur, acc => acc ++ [String.mk cur.reverse]
  | c :: t, inQ, cur, acc =>
    if c == '"' then csvRowGo t (!inQ) cur acc
    else if c == ',' && !inQ then csvRowGo t inQ [] (acc ++ [String.mk cur.reverse])
    else csvRowGo t inQ (c :: cur) acc

/-- Source `safeParseCSVRow`: quote-aware split, `none` when the row has
fewer fields than expected. -/
def safeParseCSVRow (line : String) (expected : Nat) : Option (List String) :=
  let out := csvRowGo line.toList false [] []
  if expected ≤ out.length then some out else none

/-- Source header row handling: plain comma split, each name trimmed. -/
def headersOf (row : String) : List String :=
  (splitOnChar ',' row.toList).map fun l => jsTrim (String.mk l)

/-- JS `Array.prototype.indexOf`: position or `-1`. -/
def jsIndexOf (l : List String) (k : String) : Int :=
  match l.findIdx? (· == k) with
  | some n => (n : Int)
  | none => -1

/-- JS indexing `cols[i]`: `undefined` (here `none`) when out of range,
including the `i = -1` of a missing header. -/
def jsGetStr (l : List String) (i : Int) : Option String :=
  if 0 ≤ i then l[i.toNat]? else none

/-- JS `x || d` on an optional string: `undefined` and `""` are falsy. -/
def jsOrStr (o : Option String) (d : String) : String :=
  match o with
  | some s => if s == "" then d else s
  | none => d

/-- Digit run to a natural number. -/
def natOfDigits (l : List Char) : ℕ :=
  l.foldl (fun a c => a * 10 + (c.toNat - 48)) 0

/-- Optional exponent suffix of a JS decimal literal: empty, or
`e`/`E`, an optional sign and a nonempty digit run consuming the rest. -/
def expOf : List Char → Option ℤ
  | [] => some 0
  | e :: r =>
    if e == 'e' || e == 'E' then
      match r with
      | '+' :: r4 =>
        if !r4.isEmpty && r4.all Char.isDigit then some (natOfDigits r4 : ℤ) else none
      | '-' :: r4 =>
        if !r4.isEmpty && r4.all Char.isDigit then some (-(natOfDigits r4 : ℤ)) else none
      | r4 =>
        if !r4.isEmpty && r4.all Char.isDigit then some (natOfDigits r4 : ℤ) else none
    else none

/-- Value of a JS decimal literal `digits[.digits][e[±]digits]` (at
least one digit in the integer or fraction part), `none` when the text
is not of that shape. -/
def decValue (l : List Char) : Option ℚ :=
  let ip := l.takeWhile Char.isDigit
  let r1 := l.dropWhile Char.isDigit
  match r1 with
  | '.' :: r =>
    let fp := r.takeWhile Char.isDigit
    let r2 := r.dropWhile Char.isDigit
    if ip.isEmpty && fp.isEmpty then none
    else
      match expOf r2 with
      | none => none
      | some e => some (((natOfDigits ip : ℚ) + (natOfDigits fp : ℚ) / 10 ^ fp.length)
          * 10 ^ e)
  | _ =>
    if ip.isEmpty then none
    else
      match expOf r1 with
      | none => none
      | some e => some ((natOfDigits ip : ℚ) * 10 ^ e)

def hexVal (c : Char) : Option ℕ :=
  if c.isDigit then some (c.toNat - 48)
  else if 'a' ≤ c && c ≤ 'f' then some (c.toNat - 87)
  else if 'A' ≤ c && c ≤ 'F' then some (c.toNat - 55)
  else none

def octVal (c : Char) : Option ℕ :=
  if '0' ≤ c && c ≤ '7' then some (c.toNat - 48) else none

def binVal (c : Char) : Option ℕ :=
  if c == '0' then some 0 else if c == '1' then some 1 else none

/-- Nonempty digit run in a radix, else `none`. -/
def radixVal (base : ℕ) (digitVal : Char → Option ℕ) (l : List Char) : Option ℕ :=
  if l.isEmpty then none
  else
    l.foldl (fun acc c =>
      match acc, digitVal c with
      | some a, some d => some (a * base + d)
      | _, _ => none) (some 0)

def radixToJn (base : ℕ) (digitVal : Char → Option ℕ) (l : List Char) : Jn :=
  match radixVal base digitVal l with
  | some n => .fin n
  | none => .nan

/-- Signed decimal tail of JS `Number`: `Infinity` is non-finite
(collapsed to `nan` in this model), otherwise a decimal literal. -/
def decSigned (sgn : ℚ) (l : List Char) : Jn :=
  if l = "Infinity".toList then .nan
  else
    match decValue l with
    | some q => .fin (sgn * q)
    | none => .nan

/-- JS `Number(s)` on a string: trim, empty is `0`, radix prefixes
(`0x`/`0o`/`0b`, signless), otherwise an optional sign and a decimal
literal; anything else is `NaN`. -/
def jsNumber (s : String) : Jn :=
  match trimChars s.toList with
  | [] => .fin 0
  | '0' :: 'x' :: r => radixToJn 16 hexVal r
  | '0' :: 'X' :: r => radixToJn 16 hexVal r
  | '0' :: 'o' :: r => radixToJn 8 octVal r
  | '0' :: 'O' :: r => radixToJn 8 octVal r
  | '0' :: 'b' :: r => radixToJn 2 binVal r
  | '0' :: 'B' :: r => radixToJn 2 binVal r
  | '+' :: r => decSigned 1 r
  | '-' :: r => decSigned (-1) r
  | l => decSigned 1 l

/-- Source `Number(cols[j] || 0)`: a missing cell or empty string is
falsy, so `Number(0) = 0`; any other cell text goes through `Number`. -/
def jsNumCell (o : Option String) : Jn :=
  match o with
  | none => .fin 0
  | some s => if s == "" then .fin 0 else jsNumber s

/-- Source `.replaceAll(" ", "")`: strips literal spaces only. -/
def stripSpaces (s : String) : String :=
  String.mk (s.toList.filter fun c => !(c == ' '))

/-- Regex `/\s+/g → "-"`: each whitespace run becomes one hyphen. -/
def collapseWsAux : Bool → List Char → List Char
  | _, [] => []
  | prevWs, c :: t =>
    if isJsSpace c then
      if prevWs then collapseWsAux true t else '-' :: collapseWsAux true t
    else c :: collapseWsAux false t

/-- Source id synthesis suffix: lower-case, then whitespace runs to
hyphens. -/
def slugify (s : String) : String :=
  String.mk (collapseWsAux false (s.toList.map Char.toLower))

/-- Source multi-valued cell split: `|`-split when a pipe is present,
else comma split; the empty cell gives the empty list. -/
def splitMulti (s : String) : List String :=
  if s == "" then []
  else if s.toList.contains '|' then (splitOnChar '|' s.toList).map String.mk
  else (splitOnChar ',' s.toList).map String.mk

/-- The sponsored truthy tokens of the source. -/
def sponsoredTokens : List String := ["1", "true", "yes", "y"]

/-- Body of the row loop of `parseAirtableCSV`: build one board from the
header names and the row's fields (`i` is the 1-based row number used in
the synthesized id). -/
def mkBoardFromRow (headers : List String) (cols : List String) (i : ℕ) : CsvBoard :=
  let get := fun (k : String) => jsGetStr cols (jsIndexOf headers k)
  let wave := stripSpaces ((get "waveTypes").getD "")
  let abil := stripSpaces ((get "abilities").getD "")
  let sponsoredRaw := jsToLower ((get "sponsored").getD "")
  { id := jsOrStr (get "id")
      (slugify (((get "shaper").getD "") ++ "-" ++ jsOrStr (get "model") (toString i)))
    shaper := (get "shaper").getD ""
    model := (get "model").getD ""
    waveTypes := splitMulti wave
    abilities := splitMulti abil
    recommendedWeight :=
      (jsNumCell (get "recommendedWeightMin"), jsNumCell (get "recommendedWeightMax"))
    length := (get "length").getD ""
    volume := jsNumCell (get "volume")
    tail := (get "tail").getD ""
    fins := (get "fins").getD ""
    construction := (get "construction").getD ""
    img := (get "img").getD ""
    sponsored := sponsoredTokens.contains sponsoredRaw }

/-- Row loop of `parseAirtableCSV`: short rows are dropped, the row
counter advances either way. -/
def parseRows (headers : List String) : List String → ℕ → List CsvBoard
  | [], _ => []
  | r :: t, i =>
    match safeParseCSVRow r headers.length with
    | none => parseRows headers t (i + 1)
    | some cols => mkBoardFromRow headers cols i :: parseRows headers t (i + 1)

/-- Source `parseAirtableCSV`: split lines, drop empties, return `[]`
when nothing is left, else parse the header row and loop over the body
rows from index 1. -/
def parseAirtableCSV (csv : String) : List CsvBoard :=
  match rowsOf csv with
  | [] => []
  | header :: body => parseRows (headersOf header) body 1

/-! ### Catalog loader (CSV source) and fallback data -/

/-- Source `FALLBACK_BOARDS`: the three hard-coded sample boards. -/
def FALLBACK_BOARDS : List Board :=
  [ { id := "js-monsta-2024", shaper := "JS Industries", model := "Monsta 2024"
      waveTypes := [.small_beach, .mellow_point, .punchy_reef]
      abilities := [.intermediate, .advanced]
      recommendedWeight := (65, 95), length := "6\x270\"", volume := 63 / 2
      tail := "Squash", fins := "Thruster / 5-fin", construction := "PU/PE"
      img := "https://images.unsplash.com/photo-1544551763-7ef420b9b04c?q=80&w=1200&auto=format&fit=crop" }
  , { id := "ci-happy-everyday", shaper := "Channel Islands", model := "Happy Everyday"
      waveTypes := [.small_beach, .mellow_point]
      abilities := [.beginner, .intermediate]
      recommendedWeight := (55, 90), length := "5\x2710\"", volume := 303 / 10
      tail := "Rounded Squash", fins := "Thruster / Quad"
      construction := "PU/PE / Spine-Tek"
      img := "https://images.unsplash.com/photo-1540932239986-30128078f3c5?q=80&w=1200&auto=format&fit=crop"
      sponsored := true }
  , { id := "pyzel-ghost", shaper := "Pyzel", model := "Ghost"
      waveTypes := [.punchy_reef, .overhead]
      abilities := [.intermediate, .advanced]
      recommendedWeight := (70, 105), length := "6\x272\"", volume := 164 / 5
      tail := "Round", fins := "Thruster", construction := "PU/PE / Epoxy"
      img := "https://images.unsplash.com/photo-1496545672447-f699b503d270?q=80&w=1200&auto=format&fit=crop" } ]

def waveTypeName : WaveType → String
  | .small_beach => "small_beach"
  | .mellow_point => "mellow_point"
  | .punchy_reef => "punchy_reef"
  | .overhead => "overhead"

def abilityName : Ability → String
  | .beginner => "beginner"
  | .intermediate => "intermediate"
  | .advanced => "advanced"

/-- View an engine board as an ingested record (enum tags to their
strings, finite numerics to `Jn.fin`), so the loader's two outcomes
share one type. -/
def toCsvBoard (b : Board) : CsvBoard :=
  { id := b.id, shaper := b.shaper, model := b.model
    waveTypes := b.waveTypes.map waveTypeName
    abilities := b.abilities.map abilityName
    recommendedWeight := (.fin b.recommendedWeight.1, .fin b.recommendedWeight.2)
    length := b.length, volume := .fin b.volume
    tail := b.tail, fins := b.fins, construction := b.construction
    img := b.img, sponsored := b.sponsored }

/-- Outcome of the `fetch` call, which is external to the core: the
promise rejects (network error), or resolves with an ok/non-ok status
and a body text. -/
inductive FetchOutcome
  | abort
  | ok (okStatus : Bool) (body : String)

/-- The CSV branch of the source `load` function: a rejected fetch or a
non-ok status throws into the `catch`, which installs the fallback
boards and the warning string; a successful fetch parses the body, and
the `error` state stays `null`. -/
def loadAirtable (r : FetchOutcome) : List CsvBoard × Option String :=
  match r with
  | .abort =>
    (FALLBACK_BOARDS.map toCsvBoard, some "Using sample data (airtable fetch failed)")
  | .ok false _ =>
    (FALLBACK_BOARDS.map toCsvBoard, some "Using sample data (airtable fetch failed)")
  | .ok true body => (parseAirtableCSV body, none)

/-- Counterexample to C5 as stated: on a row whose `volume` cell is the
unparsable non-empty text `abc`, the parsed board's volume is `NaN`, not
`0`. -/
theorem C5_counterexample :
    (parseAirtableCSV "id,shaper,model,volume\nb1,S,M,abc").map (fun b => b.volume)
      = [Jn.nan]
    ∧ Jn.nan ≠ Jn.fin 0 :=
  ⟨by decide, by decide⟩

/-- C5 (amended): in CSV ingestion each numeric field
(`recommendedWeightMin`, `recommendedWeightMax`, `volume`) defaults to
`0` when its cell is missing (absent column or short access) or empty;
a non-empty cell goes through JS `Number`, so an unparsable non-empty
value (such as `abc`) yields `NaN`, not `0`. -/
theorem C5_numeric_defaults (headers cols : List String) (i : ℕ) :
    (jsGetStr cols (jsIndexOf headers "volume") = none ∨
        jsGetStr cols (jsIndexOf headers "volume") = some "" →
      (mkBoardFromRow headers cols i).volume = Jn.fin 0)
    ∧ (∀ s, jsGetStr cols (jsIndexOf headers "volume") = some s → ¬s = "" →
        (mkBoardFromRow headers cols i).volume = jsNumber s)
    ∧ (jsGetStr cols (jsIndexOf headers "recommendedWeightMin") = none ∨
        jsGetStr cols (jsIndexOf headers "recommendedWeightMin") = some "" →
      (mkBoardFromRow headers cols i).recommendedWeight.1 = Jn.fin 0)
    ∧ (∀ s, jsGetStr cols (jsIndexOf headers "recommendedWeightMin") = some s → ¬s = "" →
        (mkBoardFromRow headers cols i).recommendedWeight.1 = jsNumber s)
    ∧ (jsGetStr cols (jsIndexOf headers "recommendedWeightMax") = none ∨
        jsGetStr cols (jsIndexOf headers "recommendedWeightMax") = some "" →
      (mkBoardFromRow headers cols i).recommendedWeight.2 = Jn.fin 0)
    ∧ (∀ s, jsGetStr cols (jsIndexOf headers "recommendedWeightMax") = some s → ¬s = "" →
        (mkBoardFromRow headers cols i).recommendedWeight.2 = jsNumber s)
    ∧ jsNumber "abc" = Jn.nan := by
  have hcases : ∀ o : Option String,
      (o = none ∨ o = some "" → jsNumCell o = Jn.fin 0)
      ∧ (∀ s, o = some s → ¬s = "" → jsNumCell o = jsNumber s) := by
    intro o
    constructor
    · rintro (rfl | rfl) <;> simp [jsNumCell]
    · rintro s rfl hne
      simp [jsNumCell, hne]
  exact ⟨(hcases _).1, (hcases _).2, (hcases _).1, (hcases _).2,
    (hcases _).1, (hcases _).2, by decide⟩

/-- Witness for C5 (amended): a row with no `volume` column parses with
volume `0`. -/
theorem C5_witness : (mkBoardFromRow ["id"] ["x"] 1).volume = Jn.fin 0 :=
  (C5_numeric_defaults ["id"] ["x"] 1).1 (Or.inl (by decide))

/-- Counterexample to C6 as stated: a successful fetch with an empty CSV
body yields an empty catalog and a `null` warning — not the fallback
sample set with a warning. -/
theorem C6_counterexample :
    (loadAirtable (.ok true "")).1 = []
    ∧ (loadAirtable (.ok true "")).2 = none
    ∧ FALLBACK_BOARDS.map toCsvBoard ≠ [] := by
  refine ⟨by decide, rfl, ?_⟩
  simp [FALLBACK_BOARDS]

/-- C6 (amended): the loader is a total function of the fetch outcome.
Transport failures (rejected fetch, non-ok status) return the fixed
3-board fallback set with a non-null warning naming the source kind; but
a successful fetch with an empty CSV body returns an empty catalog and a
`null` warning, because `parseAirtableCSV` returns `[]` on empty input
instead of throwing. -/
theorem C6_loader_behavior :
    loadAirtable .abort =
      (FALLBACK_BOARDS.map toCsvBoard, some "Using sample data (airtable fetch failed)")
    ∧ (∀ body, loadAirtable (.ok false body) =
        (FALLBACK_BOARDS.map toCsvBoard, some "Using sample data (airtable fetch failed)"))
    ∧ loadAirtable (.ok true "") = ([], none) := by
  refine ⟨rfl, fun _ => rfl, ?_⟩
  have h : parseAirtableCSV "" = [] := by decide
  show (parseAirtableCSV "", none) = ([], none)
  rw [h]

/-- Counterexample to C7 as stated: the source lower-cases but does not
trim the sponsored cell, so the cell text ` True` (with a leading space)
parses as `sponsored = false` even though its trimmed lower-case form is
`true`, one of the truthy tokens. -/
theorem C7_counterexample :
    (parseAirtableCSV "id,sponsored\nb1, True").map (fun b => b.sponsored) = [false]
    ∧ jsToLower (jsTrim " True") ∈ sponsoredTokens :=
  ⟨by decide, by decide⟩

/-- C7 (amended): the parsed board's `sponsored` field is true exactly
when the lower-cased — but not trimmed — cell value is one of
`1`, `true`, `yes`, `y`; a missing or empty cell (lower-cased to the
empty string) is false. -/
theorem C7_sponsored_iff (headers cols : List String) (i : ℕ) :
    (mkBoardFromRow headers cols i).sponsored = true ↔
      (jsToLower ((jsGetStr cols (jsIndexOf headers "sponsored")).getD "") = "1"
       ∨ jsToLower ((jsGetStr cols (jsIndexOf headers "sponsored")).getD "") = "true"
       ∨ jsToLower ((jsGetStr cols (jsIndexOf headers "sponsored")).getD "") = "yes"
       ∨ jsToLower ((jsGetStr cols (jsIndexOf headers "sponsored")).getD "") = "y") := by
  show sponsoredTokens.contains
      (jsToLower ((jsGetStr cols (jsIndexOf headers "sponsored")).getD "")) = true ↔ _
  rw [List.elem_iff]
  simp [sponsoredTokens]

end SurfFinder
